import Mathlib

set_option maxRecDepth 10000

/-!
Shallow embedding of `generate_test_data.py` (CDP profile-event sender).

The script has three parts:
* an event synthesizer `generate_event` drawing from identity pools and a
  pseudo-random stream,
* a dispatcher `send_event` / `send_events_sequential` posting events over
  HTTP and recording per-event outcomes,
* an aggregator `print_statistics` computing summary counters.

Randomness (`random.randint`, `random.choice`, faker calls) is modelled by
an explicit record of draws per event: `randint(a, b)` becomes
`a + draw % (b - a + 1)` for an arbitrary natural draw, `random.choice(l)`
becomes indexing by `draw % l.length`, and faker strings are supplied
directly. The HTTP layer is modelled by an `HttpResult` input: either a
response (status code and body text) or a raised transport fault.
Timestamps are modelled as integer seconds. Fallible steps (indexing an
empty or too-short pool, the aggregator's division by `len(results)`)
return `Option`.
-/

namespace CDP

/-- Fixed value pools of the script (module-level constants). -/
def TYPES : List String := ["login", "register", "update_profile", "purchase", "view_product"]

def GENDERS : List String := ["male", "female", "other"]

def RELIGIONS : List String := ["Buddhism", "Catholic", "None", "Protestant", "Other"]

def OS_LIST : List String := ["Windows 10", "Windows 11", "macOS", "Ubuntu", "iOS", "Android"]

def DEVICES : List String := ["Desktop", "MacBook Pro", "iPhone 15", "Samsung Galaxy S24", "iPad", "Laptop"]

def BROWSERS : List String := ["Chrome", "Safari", "Firefox", "Edge", "Opera"]

def UTM_SOURCES : List String := ["google", "facebook", "instagram", "direct", "email", "tiktok"]

def UTM_CAMPAIGNS : List String := ["summer_sale", "winter_promo", "none", "black_friday", "new_year"]

def UTM_MEDIUMS : List String := ["cpc", "organic", "email", "social", "referral"]

def REG_SOURCES : List String := ["web_desktop", "web_mobile", "ios_app", "android_app", "api"]

def USER_DEVICES : List String := ["desktop", "mobile", "tablet"]

/-- `random.choice(l)` picks one element of a non-empty list; the pick is
parametrised by an arbitrary draw reduced modulo the length. -/
def choice (l : List String) (draw : Nat) : String :=
  l.getD (draw % l.length) ""

/-- `str(index).zfill(5)`: pad the decimal string with leading zeros to
width `w`. -/
def zfill (s : String) (w : Nat) : String :=
  String.mk (List.replicate (w - s.length) '0') ++ s

/-- The `traits` sub-record of an event. -/
structure Traits where
  full_name : String
  first_name : String
  last_name : String
  idcard : String
  old_idcard : String
  phone : String
  email : String
  gender : String
  dob : String
  address : String
  religion : String
deriving DecidableEq, Repr

/-- The `platforms` sub-record of an event. -/
structure Platforms where
  os : String
  device : String
  browser : String
  app_version : String
deriving DecidableEq, Repr

/-- The `campaign` sub-record of an event. -/
structure Campaign where
  utm_source : String
  utm_campaign : String
  utm_medium : String
deriving DecidableEq, Repr

/-- The `metadata` sub-record of an event; the two timestamps are modelled
as integer seconds rather than formatted strings. -/
structure Metadata where
  first_seen_at : Int
  last_seen_at : Int
  registration_source : String
  user_agent : String
  login_count : Nat
deriving DecidableEq, Repr

/-- One profile event, as built by `generate_event`. -/
structure Event where
  type : String
  user_id : String
  traits : Traits
  platforms : Platforms
  campaign : Campaign
  metadata : Metadata
deriving DecidableEq, Repr

/-- The per-event pseudo-random draws consumed by `generate_event`:
one field per `random.randint` / `random.choice` / faker call, in source
order. -/
structure EventDraws where
  idcard_index : Nat
  days_ago : Nat
  hours_ago : Nat
  minutes_ago : Nat
  first_seen_days : Nat
  first_name : String
  last_name : String
  type_idx : Nat
  user_device_idx : Nat
  phone : String
  email : String
  gender_idx : Nat
  dob : String
  address : String
  religion_idx : Nat
  os_idx : Nat
  device_idx : Nat
  browser_idx : Nat
  appv_major : Nat
  appv_minor : Nat
  appv_patch : Nat
  utm_source_idx : Nat
  utm_campaign_idx : Nat
  utm_medium_idx : Nat
  reg_source_idx : Nat
  user_agent : String
  login_count : Nat
deriving DecidableEq, Repr

/-- A draws record with all fields zero / empty, for concrete instances. -/
def draws0 : EventDraws :=
  { idcard_index := 0, days_ago := 0, hours_ago := 0, minutes_ago := 0
    first_seen_days := 0, first_name := "", last_name := "", type_idx := 0
    user_device_idx := 0, phone := "", email := "", gender_idx := 0
    dob := "", address := "", religion_idx := 0, os_idx := 0, device_idx := 0
    browser_idx := 0, appv_major := 0, appv_minor := 0, appv_patch := 0
    utm_source_idx := 0, utm_campaign_idx := 0, utm_medium_idx := 0
    reg_source_idx := 0, user_agent := "", login_count := 0 }

/-- `generate_event(index, idcard_pool, old_idcard_pool)`.

`random.randint(0, len(idcard_pool) - 1)` raises on an empty pool, and
`old_idcard_pool[idcard_index]` raises when the old pool is shorter than
the chosen index; both failures are `none`. `now` is the current time in
integer seconds; `last_seen_at` is `now` minus the random
day/hour/minute offsets and `first_seen_at` subtracts a further random
number of days (0..365). -/
def generate_event (index : Nat) (idcard_pool old_idcard_pool : List String)
    (d : EventDraws) (now : Int) : Option Event :=
  if idcard_pool.isEmpty then none
  else
    match idcard_pool[d.idcard_index % idcard_pool.length]?,
        old_idcard_pool[d.idcard_index % idcard_pool.length]? with
    | some idcard, some old_idcard =>
      let event_time : Int :=
        now - (86400 * (d.days_ago % 31) + 3600 * (d.hours_ago % 24) + 60 * (d.minutes_ago % 60))
      let first_seen : Int := event_time - 86400 * (d.first_seen_days % 366)
      let first_name := d.first_name
      let last_name := d.last_name
      some
        { type := choice TYPES d.type_idx
          user_id := "user_" ++ choice USER_DEVICES d.user_device_idx ++ "_" ++ zfill (toString index) 5
          traits :=
            { full_name := last_name ++ " " ++ first_name
              first_name := first_name
              last_name := last_name
              idcard := idcard
              old_idcard := old_idcard
              phone := d.phone
              email := d.email
              gender := choice GENDERS d.gender_idx
              dob := d.dob
              address := d.address
              religion := choice RELIGIONS d.religion_idx }
          platforms :=
            { os := choice OS_LIST d.os_idx
              device := choice DEVICES d.device_idx
              browser := choice BROWSERS d.browser_idx
              app_version :=
                toString (1 + d.appv_major % 3) ++ "." ++ toString (d.appv_minor % 10)
                  ++ "." ++ toString (d.appv_patch % 10) }
          campaign :=
            { utm_source := choice UTM_SOURCES d.utm_source_idx
              utm_campaign := choice UTM_CAMPAIGNS d.utm_campaign_idx
              utm_medium := choice UTM_MEDIUMS d.utm_medium_idx }
          metadata :=
            { first_seen_at := first_seen
              last_seen_at := event_time
              registration_source := choice REG_SOURCES d.reg_source_idx
              user_agent := d.user_agent
              login_count := 1 + d.login_count % 100 } }
    | _, _ => none

/-- The outcome of one HTTP call: a response with status code and body
text, or a raised transport-level fault with its message. -/
inductive HttpResult where
  | response (status_code : Nat) (text : String)
  | fault (msg : String)
deriving DecidableEq, Repr

/-- One outcome record produced by `send_event`. The Python dict has a
`response` key only in the response branch and an `error` key only in the
exception branch; absent keys are `none`. -/
structure Outcome where
  index : Nat
  status_code : Nat
  success : Bool
  idcard : String
  type : String
  response : Option String
  error : Option String
deriving DecidableEq, Repr

/-- `send_event(event, index, config)`: the HTTP call itself is the
`http` input. On a response, `success` is `status ∈ [200, 201]` and the
body is kept (truncated to 200 characters) only when `status >= 400`;
on an exception the outcome has status code 0 and the fault text. -/
def send_event (event : Event) (index : Nat) (http : HttpResult) : Outcome :=
  match http with
  | .response status_code text =>
      { index := index
        status_code := status_code
        success := status_code = 200 || status_code = 201
        idcard := event.traits.idcard
        type := event.type
        response := if 400 ≤ status_code then some (text.take 200) else none
        error := none }
  | .fault msg =>
      { index := index
        status_code := 0
        success := false
        idcard := event.traits.idcard
        type := event.type
        response := none
        error := some msg }

/-- `send_events_sequential`, generalised over the starting index:
send each event in submission order, the `i`-th with 1-based index `i`;
`http i` is the network result of the `i`-th call. -/
def send_events_sequential_from (http : Nat → HttpResult) :
    Nat → List Event → List Outcome
  | _, [] => []
  | i, e :: es => send_event e i (http i) :: send_events_sequential_from http (i + 1) es

/-- `send_events_sequential(events, config)` starts `enumerate(events, 1)`
at index 1. -/
def send_events_sequential (events : List Event) (http : Nat → HttpResult) : List Outcome :=
  send_events_sequential_from http 1 events

/-- `main`'s event loop, generalised over the starting index:
`[generate_event(i, idcard_pool, old_idcard_pool) for i in range(1, N + 1)]`
consuming one draws record per event. A failing generation fails the run. -/
def generate_events_from (pool oldPool : List String) (now : Int) :
    Nat → List EventDraws → Option (List Event)
  | _, [] => some []
  | i, d :: ds =>
    match generate_event i pool oldPool d now, generate_events_from pool oldPool now (i + 1) ds with
    | some e, some es => some (e :: es)
    | _, _ => none

/-- The event list built in `main`, `range(1, NUM_EVENTS + 1)` starting
at 1; one event per draws record. -/
def generate_events (draws : List EventDraws) (pool oldPool : List String) (now : Int) :
    Option (List Event) :=
  generate_events_from pool oldPool now 1 draws

/-- The idcard pool built in `main`: each entry is the decimal string of
`fake.random_int(min=100000000000, max=100000000095)`, one entry per
requested unique idcard (the draw is reduced modulo the 96 possible
values). -/
def make_idcard_pool (draws : List Nat) : List String :=
  draws.map (fun d => toString (100000000000 + d % 96))

/-- `m.get(k, dflt)` on an association-list model of a Python dict. -/
def dictGetD {α : Type} [DecidableEq α] (m : List (α × Nat)) (k : α) (dflt : Nat) : Nat :=
  match m.find? (fun p => decide (p.1 = k)) with
  | some p => p.2
  | none => dflt

/-- `m[k] = v` on the association-list model: overwrite the entry in
place when the key exists, append otherwise (Python dicts keep insertion
order). -/
def dictSet {α : Type} [DecidableEq α] (m : List (α × Nat)) (k : α) (v : Nat) : List (α × Nat) :=
  if m.any (fun p => decide (p.1 = k)) then
    m.map (fun p => if p.1 = k then (k, v) else p)
  else m ++ [(k, v)]

/-- `m[k] = m.get(k, 0) + 1`, the counting step of each histogram loop. -/
def bump {α : Type} [DecidableEq α] (m : List (α × Nat)) (k : α) : List (α × Nat) :=
  dictSet m k (dictGetD m k 0 + 1)

/-- A `for x in xs: d[x] = d.get(x, 0) + 1` histogram dict. -/
def histogram {α : Type} [DecidableEq α] (keys : List α) : List (α × Nat) :=
  keys.foldl bump []

/-- The data computed by `print_statistics` (the printed report's
content, in computation order). -/
structure Report where
  success_count : Nat
  failed_count : Nat
  status_codes : List (Nat × Nat)
  type_dist : List (String × Nat)
  idcard_count : List (String × Nat)
  duplicate_idcards : List (String × Nat)
  unique_idcards : Nat
  dup_idcards_count : Nat
  merge_total : Nat
  top10 : List (String × Nat)
  failed_shown : List Outcome
deriving DecidableEq, Repr

/-- `print_statistics(results, events)`. The success/failure percentage
divides by `len(results)`, so an empty result list raises
`ZeroDivisionError`, modelled as `none`. `top10` is
`sorted(duplicate_idcards.items(), key=count, reverse=True)[:10]`
(descending by count), and `failed_shown` is the first 10 non-successful
outcomes. -/
def print_statistics (results : List Outcome) (events : List Event) : Option Report :=
  if results.isEmpty then none
  else
    let success_count := (results.filter (fun r => r.success)).length
    let failed_count := results.length - success_count
    let status_codes := histogram (results.map (fun r => r.status_code))
    let type_dist := histogram (events.map (fun e => e.type))
    let idcard_count := histogram (events.map (fun e => e.traits.idcard))
    let duplicate_idcards := idcard_count.filter (fun p => 1 < p.2)
    some
      { success_count := success_count
        failed_count := failed_count
        status_codes := status_codes
        type_dist := type_dist
        idcard_count := idcard_count
        duplicate_idcards := duplicate_idcards
        unique_idcards := idcard_count.length
        dup_idcards_count := duplicate_idcards.length
        merge_total := (duplicate_idcards.map Prod.snd).sum
        top10 := (duplicate_idcards.mergeSort (fun a b => decide (b.2 ≤ a.2))).take 10
        failed_shown := (results.filter (fun r => !r.success)).take 10 }

/-- A concrete event with a given idcard, for concrete instances. -/
def sampleEvent (idcard : String) : Event :=
  { type := "login"
    user_id := "user_desktop_00001"
    traits :=
      { full_name := "", first_name := "", last_name := "", idcard := idcard
        old_idcard := "", phone := "", email := "", gender := "male"
        dob := "", address := "", religion := "None" }
    platforms := { os := "macOS", device := "Desktop", browser := "Chrome", app_version := "1.0.0" }
    campaign := { utm_source := "direct", utm_campaign := "none", utm_medium := "cpc" }
    metadata :=
      { first_seen_at := 0, last_seen_at := 0, registration_source := "api"
        user_agent := "", login_count := 1 } }

/-- A concrete successful outcome, for concrete instances. -/
def sampleOutcome : Outcome :=
  { index := 1, status_code := 200, success := true, idcard := "A", type := "login"
    response := none, error := none }

end CDP

namespace CDP

/-- Invariant tying a histogram dict to the key list it was built from:
its keys are distinct, each entry holds the key's multiplicity, and its
key set is exactly the set of elements of the list. -/
def HistInv {α : Type} [DecidableEq α] (m : List (α × Nat)) (ks : List α) : Prop :=
  (m.map Prod.fst).Nodup ∧ (∀ p ∈ m, p.2 = ks.count p.1) ∧
    ∀ x, x ∈ m.map Prod.fst ↔ x ∈ ks

theorem bump_histInv {α : Type} [DecidableEq α] {m : List (α × Nat)} {ks : List α} {k : α}
    (h : HistInv m ks) : HistInv (bump m k) (ks ++ [k]) := by
  obtain ⟨hnd, hcnt, hmem⟩ := h
  by_cases hk : m.any (fun p => decide (p.1 = k)) = true
  · have hkmem : k ∈ m.map Prod.fst := by
      rcases List.any_eq_true.mp hk with ⟨p, hp, hpk⟩
      simp only [decide_eq_true_eq] at hpk
      exact List.mem_map.mpr ⟨p, hp, hpk⟩
    have hkks : k ∈ ks := (hmem k).mp hkmem
    have hget : dictGetD m k 0 = ks.count k := by
      rcases hfind : m.find? (fun p => decide (p.1 = k)) with _ | p
      · rcases List.any_eq_true.mp hk with ⟨p, hp, hpk⟩
        exact absurd hpk (List.find?_eq_none.mp hfind p hp)
      · have h1 : p.1 = k := by simpa using List.find?_some hfind
        have h2 : p ∈ m := List.mem_of_find?_eq_some hfind
        simp only [dictGetD, hfind]
        rw [hcnt p h2, h1]
    have hbump : bump m k = m.map (fun p => if p.1 = k then (k, ks.count k + 1) else p) := by
      simp [bump, dictSet, hk, hget]
    have hkeys : (bump m k).map Prod.fst = m.map Prod.fst := by
      rw [hbump, List.map_map]
      refine List.map_congr_left ?_
      intro p hp
      by_cases hpk : p.1 = k <;> simp [hpk]
    refine ⟨?_, ?_, ?_⟩
    · rw [hkeys]; exact hnd
    · intro p hp
      rw [hbump] at hp
      rcases List.mem_map.mp hp with ⟨q, hq, hfq⟩
      by_cases hqk : q.1 = k
      · simp only [hqk, if_true] at hfq
        rw [← hfq]
        simp [List.count_append]
      · simp only [hqk, if_false] at hfq
        rw [← hfq, hcnt q hq, List.count_append]
        have : List.count q.1 [k] = 0 := by
          rw [List.count_eq_zero]
          simp [hqk]
        omega
    · intro x
      rw [hkeys, hmem x]
      constructor
      · intro hx; exact List.mem_append.mpr (Or.inl hx)
      · intro hx
        rcases List.mem_append.mp hx with hx | hx
        · exact hx
        · simp only [List.mem_singleton] at hx
          rw [hx]; exact hkks
  · have hkmem : k ∉ m.map Prod.fst := by
      intro hx
      rcases List.mem_map.mp hx with ⟨p, hp, hpk⟩
      exact hk (List.any_eq_true.mpr ⟨p, hp, by simp [hpk]⟩)
    have hkks : k ∉ ks := fun hx => hkmem ((hmem k).mpr hx)
    have hget : dictGetD m k 0 = 0 := by
      have hfind : m.find? (fun p => decide (p.1 = k)) = none := by
        rw [List.find?_eq_none]
        intro p hp hpk
        simp only [decide_eq_true_eq] at hpk
        exact hkmem (List.mem_map.mpr ⟨p, hp, hpk⟩)
      simp only [dictGetD, hfind]
    have hbump : bump m k = m ++ [(k, 1)] := by
      simp [bump, dictSet, hk, hget]
    refine ⟨?_, ?_, ?_⟩
    · rw [hbump, List.map_append]
      rw [List.nodup_append]
      refine ⟨hnd, List.nodup_singleton k, ?_⟩
      intro x hx hx'
      simp only [List.map_cons, List.map_nil, List.mem_singleton] at hx'
      rw [hx'] at hx
      exact hkmem hx
    · intro p hp
      rw [hbump] at hp
      rcases List.mem_append.mp hp with hp | hp
      · have hpk : p.1 ≠ k := fun hx => hkmem (List.mem_map.mpr ⟨p, hp, hx⟩)
        rw [hcnt p hp, List.count_append]
        have : List.count p.1 [k] = 0 := by
          rw [List.count_eq_zero]
          simp [hpk]
        omega
      · simp only [List.mem_singleton] at hp
        rw [hp]
        simp only [List.count_append]
        have h0 : List.count k ks = 0 := List.count_eq_zero.mpr hkks
        simp [h0]
    · intro x
      rw [hbump, List.map_append]
      simp only [List.mem_append, List.map_cons, List.map_nil, List.mem_singleton, hmem x]

theorem histogram_histInv {α : Type} [DecidableEq α] (ks : List α) :
    HistInv (histogram ks) ks := by
  induction ks using List.reverseRecOn with
  | nil =>
      refine ⟨List.nodup_nil, ?_, ?_⟩ <;> simp [histogram]
  | append_singleton ks k ih =>
      have : histogram (ks ++ [k]) = bump (histogram ks) k := by
        simp [histogram, List.foldl_append]
      rw [this]
      exact bump_histInv ih

theorem histogram_keys_nodup {α : Type} [DecidableEq α] (ks : List α) :
    ((histogram ks).map Prod.fst).Nodup :=
  (histogram_histInv ks).1

theorem histogram_count {α : Type} [DecidableEq α] (ks : List α) {p : α × Nat}
    (hp : p ∈ histogram ks) : p.2 = ks.count p.1 :=
  (histogram_histInv ks).2.1 p hp

theorem histogram_mem_keys {α : Type} [DecidableEq α] (ks : List α) (x : α) :
    x ∈ (histogram ks).map Prod.fst ↔ x ∈ ks :=
  (histogram_histInv ks).2.2 x

theorem histogram_keys_toFinset {α : Type} [DecidableEq α] (ks : List α) :
    ((histogram ks).map Prod.fst).toFinset = ks.toFinset := by
  ext x
  simp only [List.mem_toFinset]
  exact histogram_mem_keys ks x

/-- The sum of a histogram's counts is the length of the key list. -/
theorem histogram_sum_counts {α : Type} [DecidableEq α] (ks : List α) :
    ((histogram ks).map Prod.snd).sum = ks.length := by
  have h1 : (histogram ks).map Prod.snd
      = ((histogram ks).map Prod.fst).map (fun x => ks.count x) := by
    rw [List.map_map]
    exact List.map_congr_left fun p hp => histogram_count ks hp
  rw [h1, ← List.sum_toFinset _ (histogram_keys_nodup ks), histogram_keys_toFinset]
  exact List.sum_toFinset_count_eq_length ks

/-- The number of histogram entries is the number of distinct keys. -/
theorem histogram_length {α : Type} [DecidableEq α] (ks : List α) :
    (histogram ks).length = ks.toFinset.card := by
  rw [← histogram_keys_toFinset, List.toFinset_card_of_nodup (histogram_keys_nodup ks),
    List.length_map]

/-- Membership in the duplicate-filtered histogram's key list. -/
theorem histogram_filter_keys_mem {α : Type} [DecidableEq α] (ks : List α) (x : α) :
    x ∈ ((histogram ks).filter (fun p => 1 < p.2)).map Prod.fst ↔
      x ∈ ks ∧ 1 < ks.count x := by
  constructor
  · intro hx
    rcases List.mem_map.mp hx with ⟨p, hp, rfl⟩
    rcases List.mem_filter.mp hp with ⟨hpl, hp2⟩
    have hc := histogram_count ks hpl
    simp only [decide_eq_true_eq] at hp2
    exact ⟨(histogram_mem_keys ks p.1).mp (List.mem_map.mpr ⟨p, hpl, rfl⟩), hc ▸ hp2⟩
  · rintro ⟨hx, hcx⟩
    have hx' : x ∈ (histogram ks).map Prod.fst := (histogram_mem_keys ks x).mpr hx
    rcases List.mem_map.mp hx' with ⟨p, hp, rfl⟩
    have hc := histogram_count ks hp
    refine List.mem_map.mpr ⟨p, List.mem_filter.mpr ⟨hp, ?_⟩, rfl⟩
    simp only [decide_eq_true_eq]
    rw [hc]
    exact hcx

theorem histogram_filter_keys_nodup {α : Type} [DecidableEq α] (ks : List α) :
    (((histogram ks).filter (fun p => 1 < p.2)).map Prod.fst).Nodup :=
  ((List.filter_sublist _).map Prod.fst).nodup (histogram_keys_nodup ks)

theorem histogram_filter_keys_toFinset {α : Type} [DecidableEq α] (ks : List α) :
    (((histogram ks).filter (fun p => 1 < p.2)).map Prod.fst).toFinset =
      ks.toFinset.filter (fun x => 1 < ks.count x) := by
  ext x
  simp only [List.mem_toFinset, Finset.mem_filter, histogram_filter_keys_mem]

/-- The sum of the duplicate-filtered histogram's counts is the sum of
multiplicities over the keys occurring more than once. -/
theorem histogram_filter_sum {α : Type} [DecidableEq α] (ks : List α) :
    (((histogram ks).filter (fun p => 1 < p.2)).map Prod.snd).sum =
      ∑ x in ks.toFinset.filter (fun x => 1 < ks.count x), ks.count x := by
  have h1 : ((histogram ks).filter (fun p => 1 < p.2)).map Prod.snd
      = (((histogram ks).filter (fun p => 1 < p.2)).map Prod.fst).map (fun x => ks.count x) := by
    rw [List.map_map]
    refine List.map_congr_left fun p hp => ?_
    exact histogram_count ks (List.mem_filter.mp hp).1
  rw [h1, ← List.sum_toFinset _ (histogram_filter_keys_nodup ks), histogram_filter_keys_toFinset]

/-- The number of duplicate-filtered histogram entries is the number of
distinct keys occurring more than once. -/
theorem histogram_filter_length {α : Type} [DecidableEq α] (ks : List α) :
    ((histogram ks).filter (fun p => 1 < p.2)).length =
      (ks.toFinset.filter (fun x => 1 < ks.count x)).card := by
  rw [← histogram_filter_keys_toFinset,
    List.toFinset_card_of_nodup (histogram_filter_keys_nodup ks), List.length_map]

/-- C1: for every event sent, the outcome's success flag is true iff the
HTTP response status code is 200 or 201 (so any other 2xx gives false). -/
theorem send_event_success_iff (event : Event) (index : Nat) (status_code : Nat) (text : String) :
    (send_event event index (.response status_code text)).success = true ↔
      status_code = 200 ∨ status_code = 201 := by
  simp [send_event]

/-- C2: a transport-level fault is not propagated: the outcome has status
code 0, success false, the fault text in `error`, and the event's idcard
and type echoed unchanged. -/
theorem send_event_fault (event : Event) (index : Nat) (msg : String) :
    send_event event index (.fault msg) =
      { index := index, status_code := 0, success := false,
        idcard := event.traits.idcard, type := event.type,
        response := none, error := some msg } := by
  rfl

/-- C7: every generated event has `first_seen_at ≤ last_seen_at`, since
`first_seen_at` subtracts a further nonnegative day offset from
`last_seen_at`. -/
theorem generate_event_first_le_last (index : Nat) (pool oldPool : List String)
    (d : EventDraws) (now : Int) (e : Event)
    (h : generate_event index pool oldPool d now = some e) :
    e.metadata.first_seen_at ≤ e.metadata.last_seen_at := by
  unfold generate_event at h
  split at h
  · exact absurd h (by simp)
  · split at h
    · rw [Option.some.injEq] at h
      subst h
      simp only []
      omega
    · exact absurd h (by simp)

theorem generate_event_first_le_last_witness :
    ∃ e, generate_event 1 ["a"] ["x"] draws0 0 = some e ∧
      e.metadata.first_seen_at ≤ e.metadata.last_seen_at := by
  rcases hgen : generate_event 1 ["a"] ["x"] draws0 0 with _ | e
  · exact absurd hgen (by decide)
  · exact ⟨e, rfl, generate_event_first_le_last 1 ["a"] ["x"] draws0 0 e hgen⟩

/-- A successfully generated event's idcard is drawn from the pool. -/
theorem generate_event_idcard_mem (index : Nat) (pool oldPool : List String)
    (d : EventDraws) (now : Int) (e : Event)
    (h : generate_event index pool oldPool d now = some e) :
    e.traits.idcard ∈ pool := by
  unfold generate_event at h
  split at h
  · exact absurd h (by simp)
  · split at h
    · next idcard old_idcard h1 h2 =>
        rw [Option.some.injEq] at h
        subst h
        exact List.getElem?_mem h1
    · exact absurd h (by simp)

/-- Every event of a successfully generated run has its idcard in the
pool, and one event is produced per draws record. -/
theorem generate_events_from_idcards (pool oldPool : List String) (now : Int) :
    ∀ (k : Nat) (ds : List EventDraws) (es : List Event),
      generate_events_from pool oldPool now k ds = some es →
      es.length = ds.length ∧ ∀ e ∈ es, e.traits.idcard ∈ pool
  | _, [], es => by
      intro h
      simp only [generate_events_from, Option.some.injEq] at h
      subst h
      simp
  | k, d :: ds, es => by
      intro h
      simp only [generate_events_from] at h
      rcases h1 : generate_event k pool oldPool d now with _ | e₀
      · rw [h1] at h; simp at h
      · rw [h1] at h
        rcases h2 : generate_events_from pool oldPool now (k + 1) ds with _ | es₀
        · rw [h2] at h; simp at h
        · rw [h2] at h
          simp only [Option.some.injEq] at h
          subst h
          obtain ⟨hlen, hmem⟩ := generate_events_from_idcards pool oldPool now (k + 1) ds es₀ h2
          refine ⟨by simp [hlen], ?_⟩
          intro e he
          rcases List.mem_cons.mp he with rfl | he
          · exact generate_event_idcard_mem k pool oldPool d now e h1
          · exact hmem e he

/-- C3 counterexample: a pool of size K = 2 with N = 3 > K generated
events whose random idcard index is always 0 yields only 1 distinct
idcard value, not exactly K = 2. -/
theorem generate_events_distinct_counterexample :
    (generate_events [draws0, draws0, draws0] ["a", "b"] ["x", "y"] 0).map
        (fun es => ((es.map fun e => e.traits.idcard).toFinset.card, es.length)) = some (1, 3) ∧
      (["a", "b"] : List String).length = 2 ∧ (1 : Nat) ≠ 2 ∧ (2 : Nat) < 3 := by
  refine ⟨by decide, rfl, by decide, by decide⟩

/-- C3 amended: for a pool of size K and N generated events, the number
of distinct idcard values is at most K, and when N > K at least one
idcard value appears in more than one event. -/
theorem generate_events_distinct_le (draws : List EventDraws) (pool oldPool : List String)
    (now : Int) (es : List Event)
    (h : generate_events draws pool oldPool now = some es) :
    (es.map fun e => e.traits.idcard).toFinset.card ≤ pool.length ∧
      (pool.length < es.length →
        ∃ v, 1 < List.count v (es.map fun e => e.traits.idcard)) := by
  obtain ⟨hlen, hmem⟩ := generate_events_from_idcards pool oldPool now 1 draws es h
  have hsub : (es.map fun e => e.traits.idcard).toFinset ⊆ pool.toFinset := by
    intro x hx
    simp only [List.mem_toFinset, List.mem_map] at hx
    rcases hx with ⟨e, he, rfl⟩
    exact List.mem_toFinset.mpr (hmem e he)
  have hcard : (es.map fun e => e.traits.idcard).toFinset.card ≤ pool.length :=
    le_trans (Finset.card_le_card hsub) (List.toFinset_card_le pool)
  refine ⟨hcard, ?_⟩
  intro hlt
  by_contra hcon
  push_neg at hcon
  have hnodup : (es.map fun e => e.traits.idcard).Nodup :=
    List.nodup_iff_count_le_one.mpr fun v => hcon v
  have hfin := List.toFinset_card_of_nodup hnodup
  have hlm : (es.map fun e => e.traits.idcard).length = es.length := List.length_map _ _
  omega

theorem generate_events_distinct_le_witness :
    ∃ es, generate_events [draws0, draws0, draws0, draws0] ["p", "q", "r"] ["x", "y", "z"] 0 = some es ∧
      (es.map fun e => e.traits.idcard).toFinset.card ≤ (["p", "q", "r"] : List String).length ∧
      ((["p", "q", "r"] : List String).length < es.length →
        ∃ v, 1 < List.count v (es.map fun e => e.traits.idcard)) := by
  rcases hgen : generate_events [draws0, draws0, draws0, draws0] ["p", "q", "r"] ["x", "y", "z"] 0
    with _ | es
  · exact absurd hgen (by decide)
  · obtain ⟨h1, h2⟩ :=
      generate_events_distinct_le [draws0, draws0, draws0, draws0] ["p", "q", "r"]
        ["x", "y", "z"] 0 es hgen
    exact ⟨es, rfl, h1, h2⟩

/-- C4 counterexample: status 302 is not in the 2xx range, yet the
outcome's response field is `none` rather than the truncated body,
because the code keeps the body only for `status_code >= 400`. -/
theorem send_event_response_counterexample :
    ((302 : Nat) < 200 ∨ (299 : Nat) < 302) ∧
      (send_event (sampleEvent "G") 5 (.response 302 "redirect")).response = none ∧
      (none : Option String) ≠ some ("redirect".take 200) := by
  refine ⟨by decide, rfl, by decide⟩

/-- C4 amended: the response field holds the first 200 characters of the
body exactly when the status code is at least 400; for every status
below 400 — all 1xx, 2xx and 3xx responses alike — it is `none`. -/
theorem send_event_response_field (event : Event) (index status_code : Nat) (text : String) :
    (status_code < 400 → (send_event event index (.response status_code text)).response = none) ∧
      (400 ≤ status_code →
        (send_event event index (.response status_code text)).response = some (text.take 200)) := by
  constructor
  · intro h
    simp [send_event, Nat.not_le.mpr h]
  · intro h
    simp [send_event, h]

theorem send_event_response_field_witness :
    ((send_event (sampleEvent "F") 3 (.response 204 "no content")).response = none) ∧
      ((send_event (sampleEvent "F") 4 (.response 404 "not found")).response =
        some ("not found".take 200)) :=
  ⟨(send_event_response_field (sampleEvent "F") 3 204 "no content").1 (by decide),
   (send_event_response_field (sampleEvent "F") 4 404 "not found").2 (by decide)⟩

/-- C9 counterexample: the aggregator fails on an empty outcome list
(the success percentage divides by `len(results)`), and generation fails
on an empty idcard pool (`random.randint(0, -1)` raises). -/
theorem total_empty_counterexample :
    print_statistics [] [] = none ∧ generate_event 1 [] [] draws0 0 = none :=
  ⟨rfl, rfl⟩

/-- C9 amended: generation succeeds for every index and draws whenever
the idcard pool is non-empty and the old-idcard pool is at least as
long, and aggregation succeeds for every non-empty outcome list; the
empty cases fail. -/
theorem generation_aggregation_total (index : Nat) (pool oldPool : List String)
    (d : EventDraws) (now : Int) (results : List Outcome) (events : List Event)
    (hpool : pool ≠ []) (hlen : pool.length ≤ oldPool.length) (hres : results ≠ []) :
    (∃ e, generate_event index pool oldPool d now = some e) ∧
      ∃ r, print_statistics results events = some r := by
  constructor
  · have hne : pool.isEmpty = false := by
      cases pool with
      | nil => exact absurd rfl hpool
      | cons a l => rfl
    have hpos : 0 < pool.length := by
      cases pool with
      | nil => exact absurd rfl hpool
      | cons a l => simp
    have hlt : d.idcard_index % pool.length < pool.length := Nat.mod_lt _ hpos
    have hlt2 : d.idcard_index % pool.length < oldPool.length := lt_of_lt_of_le hlt hlen
    have h1 : pool[d.idcard_index % pool.length]? =
        some pool[d.idcard_index % pool.length] := List.getElem?_eq_getElem hlt
    have h2 : oldPool[d.idcard_index % pool.length]? =
        some (oldPool.get ⟨d.idcard_index % pool.length, hlt2⟩) :=
      List.getElem?_eq_getElem hlt2
    unfold generate_event
    rw [if_neg (by simp [hne]), h1, h2]
    exact ⟨_, rfl⟩
  · have hne : results.isEmpty = false := by
      cases results with
      | nil => exact absurd rfl hres
      | cons a l => rfl
    unfold print_statistics
    rw [if_neg (by simp [hne])]
    exact ⟨_, rfl⟩

theorem generation_aggregation_total_witness :
    (∃ e, generate_event 7 ["a", "b"] ["x", "y", "z"] draws0 0 = some e) ∧
      ∃ r, print_statistics [sampleOutcome] [] = some r :=
  generation_aggregation_total 7 ["a", "b"] ["x", "y", "z"] draws0 0 [sampleOutcome] []
    (by decide) (by decide) (by decide)

/-- C10: every pool entry is the decimal string of an integer in
[100000000000, 100000000095]; the pool has at most 96 distinct values,
and any pool with more than 96 entries contains duplicates. -/
theorem make_idcard_pool_range (draws : List Nat) :
    (∀ s ∈ make_idcard_pool draws,
        ∃ n, 100000000000 ≤ n ∧ n ≤ 100000000095 ∧ s = toString n) ∧
      (make_idcard_pool draws).toFinset.card ≤ 96 ∧
      (96 < draws.length → ¬(make_idcard_pool draws).Nodup) := by
  have hsub : (make_idcard_pool draws).toFinset ⊆
      (Finset.range 96).image (fun a => toString (100000000000 + a)) := by
    intro s hs
    simp only [List.mem_toFinset, make_idcard_pool, List.mem_map] at hs
    rcases hs with ⟨a, _, rfl⟩
    exact Finset.mem_image.mpr ⟨a % 96, Finset.mem_range.mpr (Nat.mod_lt _ (by norm_num)), rfl⟩
  have hcard : (make_idcard_pool draws).toFinset.card ≤ 96 := by
    calc (make_idcard_pool draws).toFinset.card
        ≤ ((Finset.range 96).image (fun a => toString (100000000000 + a))).card :=
          Finset.card_le_card hsub
      _ ≤ (Finset.range 96).card := Finset.card_image_le
      _ = 96 := Finset.card_range 96
  refine ⟨?_, hcard, ?_⟩
  · intro s hs
    simp only [make_idcard_pool, List.mem_map] at hs
    rcases hs with ⟨a, _, rfl⟩
    refine ⟨100000000000 + a % 96, by omega, ?_, rfl⟩
    have := Nat.mod_lt a (show 0 < 96 by norm_num)
    omega
  · intro hlt hnd
    have hfin := List.toFinset_card_of_nodup hnd
    have hlen : (make_idcard_pool draws).length = draws.length := List.length_map _ _
    omega

theorem make_idcard_pool_range_witness :
    ¬(make_idcard_pool (List.range 97)).Nodup :=
  (make_idcard_pool_range (List.range 97)).2.2 (by simp)

/-- `print_statistics` on a non-empty outcome list, with all computed
fields spelled out. -/
theorem print_statistics_eq (results : List Outcome) (events : List Event)
    (h : results.isEmpty = false) :
    print_statistics results events = some
      { success_count := (results.filter (fun r => r.success)).length
        failed_count := results.length - (results.filter (fun r => r.success)).length
        status_codes := histogram (results.map (fun r => r.status_code))
        type_dist := histogram (events.map (fun e => e.type))
        idcard_count := histogram (events.map (fun e => e.traits.idcard))
        duplicate_idcards :=
          (histogram (events.map (fun e => e.traits.idcard))).filter (fun p => 1 < p.2)
        unique_idcards := (histogram (events.map (fun e => e.traits.idcard))).length
        dup_idcards_count :=
          ((histogram (events.map (fun e => e.traits.idcard))).filter (fun p => 1 < p.2)).length
        merge_total :=
          (((histogram (events.map (fun e => e.traits.idcard))).filter
            (fun p => 1 < p.2)).map Prod.snd).sum
        top10 :=
          (((histogram (events.map (fun e => e.traits.idcard))).filter
            (fun p => 1 < p.2)).mergeSort (fun a b => decide (b.2 ≤ a.2))).take 10
        failed_shown := (results.filter (fun r => !r.success)).take 10 } := by
  simp [print_statistics, h]

/-- C5: for every non-empty outcome list, the per-status-code counts sum
to the number of outcomes, the per-type counts sum to the number of
events, the reported unique/duplicate identity counters are the numbers
of distinct identities and of identities occurring more than once, and
the merge total is the sum of occurrence counts over exactly the
identities occurring in more than one event. -/
theorem print_statistics_sums (results : List Outcome) (events : List Event)
    (h : results ≠ []) :
    ∃ r, print_statistics results events = some r ∧
      (r.status_codes.map Prod.snd).sum = results.length ∧
      (r.type_dist.map Prod.snd).sum = events.length ∧
      r.unique_idcards = (events.map fun e => e.traits.idcard).toFinset.card ∧
      r.dup_idcards_count = ((events.map fun e => e.traits.idcard).toFinset.filter
        (fun v => 1 < List.count v (events.map fun e => e.traits.idcard))).card ∧
      r.merge_total = ∑ v in (events.map fun e => e.traits.idcard).toFinset.filter
        (fun v => 1 < List.count v (events.map fun e => e.traits.idcard)),
        List.count v (events.map fun e => e.traits.idcard) := by
  have hne : results.isEmpty = false := by
    cases results with
    | nil => exact absurd rfl h
    | cons a l => rfl
  refine ⟨_, print_statistics_eq results events hne, ?_, ?_, ?_, ?_, ?_⟩
  · show ((histogram (results.map (fun r => r.status_code))).map Prod.snd).sum = results.length
    rw [histogram_sum_counts, List.length_map]
  · show ((histogram (events.map (fun e => e.type))).map Prod.snd).sum = events.length
    rw [histogram_sum_counts, List.length_map]
  · show (histogram (events.map (fun e => e.traits.idcard))).length =
      (events.map fun e => e.traits.idcard).toFinset.card
    rw [histogram_length]
  · show ((histogram (events.map (fun e => e.traits.idcard))).filter (fun p => 1 < p.2)).length =
      ((events.map fun e => e.traits.idcard).toFinset.filter
        (fun v => 1 < List.count v (events.map fun e => e.traits.idcard))).card
    rw [histogram_filter_length]
  · show (((histogram (events.map (fun e => e.traits.idcard))).filter
        (fun p => 1 < p.2)).map Prod.snd).sum =
      ∑ v in (events.map fun e => e.traits.idcard).toFinset.filter
        (fun v => 1 < List.count v (events.map fun e => e.traits.idcard)),
        List.count v (events.map fun e => e.traits.idcard)
    rw [histogram_filter_sum]

/-- The end-to-end scenario of the spec: 10 events over identities
A (5 times), B (3 times) and C (twice). -/
def sceneEvents : List Event :=
  [sampleEvent "A", sampleEvent "A", sampleEvent "A", sampleEvent "A", sampleEvent "A",
   sampleEvent "B", sampleEvent "B", sampleEvent "B", sampleEvent "C", sampleEvent "C"]

/-- Ten successful outcomes for the scenario run. -/
def sceneOutcomes : List Outcome := List.replicate 10 sampleOutcome

theorem print_statistics_sums_witness :
    (∃ r, print_statistics sceneOutcomes sceneEvents = some r ∧
        (r.status_codes.map Prod.snd).sum = sceneOutcomes.length ∧
        (r.type_dist.map Prod.snd).sum = sceneEvents.length ∧
        r.unique_idcards = (sceneEvents.map fun e => e.traits.idcard).toFinset.card ∧
        r.dup_idcards_count = ((sceneEvents.map fun e => e.traits.idcard).toFinset.filter
          (fun v => 1 < List.count v (sceneEvents.map fun e => e.traits.idcard))).card ∧
        r.merge_total = ∑ v in (sceneEvents.map fun e => e.traits.idcard).toFinset.filter
          (fun v => 1 < List.count v (sceneEvents.map fun e => e.traits.idcard)),
          List.count v (sceneEvents.map fun e => e.traits.idcard)) ∧
      (print_statistics sceneOutcomes sceneEvents).map
        (fun r => (r.unique_idcards, r.dup_idcards_count, r.merge_total)) = some (3, 3, 10) :=
  ⟨print_statistics_sums sceneOutcomes sceneEvents (by decide), by decide⟩

theorem send_event_index (event : Event) (index : Nat) (http : HttpResult) :
    (send_event event index http).index = index := by
  cases http <;> rfl

theorem send_event_idcard (event : Event) (index : Nat) (http : HttpResult) :
    (send_event event index http).idcard = event.traits.idcard := by
  cases http <;> rfl

theorem send_event_type_echo (event : Event) (index : Nat) (http : HttpResult) :
    (send_event event index http).type = event.type := by
  cases http <;> rfl

theorem send_events_sequential_from_length (http : Nat → HttpResult) :
    ∀ (k : Nat) (es : List Event), (send_events_sequential_from http k es).length = es.length
  | _, [] => rfl
  | k, _ :: es => by
      simp [send_events_sequential_from, send_events_sequential_from_length http (k + 1) es]

theorem send_events_sequential_from_getElem (http : Nat → HttpResult) :
    ∀ (k : Nat) (es : List Event) (i : Nat),
      (send_events_sequential_from http k es)[i]? =
        (es[i]?).map fun e => send_event e (k + i) (http (k + i))
  | _, [], i => by simp [send_events_sequential_from]
  | k, e :: es, 0 => by simp [send_events_sequential_from]
  | k, e :: es, i + 1 => by
      have ih := send_events_sequential_from_getElem http (k + 1) es i
      simp only [send_events_sequential_from, List.getElem?_cons_succ, ih]
      have hadd : k + 1 + i = k + (i + 1) := by omega
      rw [hadd]

/-- C6: sequential sending returns exactly one outcome per input event,
and the i-th outcome is the result of sending the i-th event: its index
field is i (1-based) and it echoes that event's idcard and type. -/
theorem send_events_sequential_spec (events : List Event) (http : Nat → HttpResult) :
    (send_events_sequential events http).length = events.length ∧
      ∀ i, i < events.length →
        ∃ e o, events[i]? = some e ∧ (send_events_sequential events http)[i]? = some o ∧
          o = send_event e (i + 1) (http (i + 1)) ∧
          o.index = i + 1 ∧ o.idcard = e.traits.idcard ∧ o.type = e.type := by
  constructor
  · exact send_events_sequential_from_length http 1 events
  · intro i hi
    have he : events[i]? = some events[i] := List.getElem?_eq_getElem hi
    refine ⟨events[i], send_event events[i] (i + 1) (http (i + 1)), he, ?_, rfl, ?_, ?_, ?_⟩
    · rw [send_events_sequential, send_events_sequential_from_getElem http 1 events i, he,
        Nat.add_comm 1 i]
      rfl
    · exact send_event_index _ _ _
    · exact send_event_idcard _ _ _
    · exact send_event_type_echo _ _ _

theorem send_events_sequential_spec_witness :
    ∃ e o, ([sampleEvent "W"] : List Event)[0]? = some e ∧
      (send_events_sequential [sampleEvent "W"] (fun _ => .response 200 "ok"))[0]? = some o ∧
      o = send_event e 1 ((fun _ => HttpResult.response 200 "ok") 1) ∧
      o.index = 1 ∧ o.idcard = e.traits.idcard ∧ o.type = e.type :=
  (send_events_sequential_spec [sampleEvent "W"] (fun _ => .response 200 "ok")).2 0 (by decide)

/-- Every entry of the top-10 list is a key occurring more than once,
paired with its multiplicity. -/
theorem top10_mem {α : Type} [DecidableEq α] (ks : List α) {p : α × Nat}
    (hp : p ∈ (((histogram ks).filter (fun p => 1 < p.2)).mergeSort
      (fun a b => decide (b.2 ≤ a.2))).take 10) :
    p.1 ∈ ks ∧ 1 < List.count p.1 ks ∧ p.2 = List.count p.1 ks := by
  have hp' : p ∈ ((histogram ks).filter (fun p => 1 < p.2)).mergeSort
      (fun a b => decide (b.2 ≤ a.2)) := List.mem_of_mem_take hp
  have hpd : p ∈ (histogram ks).filter (fun p => 1 < p.2) :=
    (List.mergeSort_perm _ _).mem_iff.mp hp'
  rcases List.mem_filter.mp hpd with ⟨hph, hp2⟩
  have hc := histogram_count ks hph
  simp only [decide_eq_true_eq] at hp2
  exact ⟨(histogram_mem_keys ks p.1).mp (List.mem_map.mpr ⟨p, hph, rfl⟩), hc ▸ hp2, hc⟩

/-- The top-10 list is sorted by descending count. -/
theorem top10_sorted {α : Type} [DecidableEq α] (ks : List α) :
    List.Sorted (fun a b : α × Nat => b.2 ≤ a.2)
      ((((histogram ks).filter (fun p => 1 < p.2)).mergeSort
        (fun a b => decide (b.2 ≤ a.2))).take 10) := by
  have hs := @List.sorted_mergeSort (α × Nat) (fun a b : α × Nat => decide (b.2 ≤ a.2))
    (fun a b c h1 h2 => by
      simp only [decide_eq_true_eq] at h1 h2 ⊢
      omega)
    (fun a b => by
      rcases Nat.le_total b.2 a.2 with h | h <;> simp [h])
    ((histogram ks).filter (fun p => 1 < p.2))
  have hs' : List.Sorted (fun a b : α × Nat => b.2 ≤ a.2)
      (((histogram ks).filter (fun p => 1 < p.2)).mergeSort
        (fun a b => decide (b.2 ≤ a.2))) :=
    hs.imp (by simp)
  exact hs'.sublist (List.take_sublist 10 _)

/-- When at most 10 keys occur more than once, every such key is listed
in the top-10 list. -/
theorem top10_complete {α : Type} [DecidableEq α] (ks : List α)
    (hlen : ((histogram ks).filter (fun p => 1 < p.2)).length ≤ 10)
    {v : α} (hvm : v ∈ ks) (hv : 1 < List.count v ks) :
    v ∈ ((((histogram ks).filter (fun p => 1 < p.2)).mergeSort
      (fun a b => decide (b.2 ≤ a.2))).take 10).map Prod.fst := by
  have hsl : (((histogram ks).filter (fun p => 1 < p.2)).mergeSort
      (fun a b => decide (b.2 ≤ a.2))).length =
      ((histogram ks).filter (fun p => 1 < p.2)).length :=
    (List.mergeSort_perm _ _).length_eq
  have htake : (((histogram ks).filter (fun p => 1 < p.2)).mergeSort
      (fun a b => decide (b.2 ≤ a.2))).take 10 =
      ((histogram ks).filter (fun p => 1 < p.2)).mergeSort
        (fun a b => decide (b.2 ≤ a.2)) :=
    List.take_of_length_le (by rw [hsl]; exact hlen)
  rw [htake]
  have hvk : v ∈ ((histogram ks).filter (fun p => 1 < p.2)).map Prod.fst :=
    (histogram_filter_keys_mem ks v).mpr ⟨hvm, hv⟩
  rcases List.mem_map.mp hvk with ⟨p, hp, rfl⟩
  exact List.mem_map.mpr ⟨p, (List.mergeSort_perm _ _).mem_iff.mpr hp, rfl⟩

/-- No key occurring more than once but left off the top-10 list
outranks a listed entry. -/
theorem top10_dominant {α : Type} [DecidableEq α] (ks : List α) {p : α × Nat} {v : α}
    (hp : p ∈ (((histogram ks).filter (fun p => 1 < p.2)).mergeSort
      (fun a b => decide (b.2 ≤ a.2))).take 10)
    (hv : 1 < List.count v ks)
    (hvn : v ∉ ((((histogram ks).filter (fun p => 1 < p.2)).mergeSort
      (fun a b => decide (b.2 ≤ a.2))).take 10).map Prod.fst) :
    List.count v ks ≤ p.2 := by
  have hvm : v ∈ ks := by
    by_contra hvm
    rw [List.count_eq_zero.mpr hvm] at hv
    omega
  have hvk : v ∈ ((histogram ks).filter (fun p => 1 < p.2)).map Prod.fst :=
    (histogram_filter_keys_mem ks v).mpr ⟨hvm, hv⟩
  rcases List.mem_map.mp hvk with ⟨q, hq, rfl⟩
  have hqs : q ∈ ((histogram ks).filter (fun p => 1 < p.2)).mergeSort
      (fun a b => decide (b.2 ≤ a.2)) :=
    (List.mergeSort_perm _ _).mem_iff.mpr hq
  have hqtd : q ∈ (((histogram ks).filter (fun p => 1 < p.2)).mergeSort
        (fun a b => decide (b.2 ≤ a.2))).take 10 ∨
      q ∈ (((histogram ks).filter (fun p => 1 < p.2)).mergeSort
        (fun a b => decide (b.2 ≤ a.2))).drop 10 := by
    rw [← List.mem_append, List.take_append_drop]
    exact hqs
  rcases hqtd with hqt | hqd
  · exact absurd (List.mem_map.mpr ⟨q, hqt, rfl⟩) hvn
  · have hsorted : List.Sorted (fun a b : α × Nat => b.2 ≤ a.2)
        (((histogram ks).filter (fun p => 1 < p.2)).mergeSort
          (fun a b => decide (b.2 ≤ a.2))) := by
      have hs := @List.sorted_mergeSort (α × Nat) (fun a b : α × Nat => decide (b.2 ≤ a.2))
        (fun a b c h1 h2 => by
          simp only [decide_eq_true_eq] at h1 h2 ⊢
          omega)
        (fun a b => by
          rcases Nat.le_total b.2 a.2 with h | h <;> simp [h])
        ((histogram ks).filter (fun p => 1 < p.2))
      exact hs.imp (by simp)
    have hrel := hsorted.rel_of_mem_take_of_mem_drop hp hqd
    have hqc : q.2 = List.count q.1 ks :=
      histogram_count ks (List.mem_filter.mp hq).1
    omega

unseal List.merge List.mergeSort in
/-- C8 counterexample: with identities A (twice) and B (once) — only 2
distinct identities, fewer than 10 — the listed top identities are
exactly ["A"]: identity B is an identity of the event list but is
missing, because the code ranks only `duplicate_idcards`. -/
theorem top10_counterexample :
    ((print_statistics (List.replicate 3 sampleOutcome)
        [sampleEvent "A", sampleEvent "A", sampleEvent "B"]).map
      (fun r => r.top10.map Prod.fst)) = some ["A"] ∧
      "B" ∈ ([sampleEvent "A", sampleEvent "A", sampleEvent "B"].map fun e => e.traits.idcard) ∧
      ([sampleEvent "A", sampleEvent "A", sampleEvent "B"].map
        fun e => e.traits.idcard).toFinset.card = 2 ∧
      (2 : Nat) < 10 ∧ "B" ∉ (["A"] : List String) := by
  refine ⟨by decide, by decide, by decide, by decide, by decide⟩

/-- C8 amended: the report's top-10 list ranks by occurrence count the
identities that occur more than once (the merge candidates), not all
identities: every listed entry is a merge candidate paired with its
occurrence count, the listed counts are descending, at most 10 entries
are listed, all merge candidates are listed when there are at most 10 of
them, and no unlisted merge candidate has a higher count than a listed
entry. -/
theorem print_statistics_top10 (results : List Outcome) (events : List Event)
    (h : results ≠ []) :
    ∃ r, print_statistics results events = some r ∧
      (∀ p ∈ r.top10, p.1 ∈ (events.map fun e => e.traits.idcard) ∧
        1 < List.count p.1 (events.map fun e => e.traits.idcard) ∧
        p.2 = List.count p.1 (events.map fun e => e.traits.idcard)) ∧
      r.top10.length ≤ 10 ∧
      List.Sorted (fun a b : String × Nat => b.2 ≤ a.2) r.top10 ∧
      (r.dup_idcards_count ≤ 10 →
        ∀ v, v ∈ (events.map fun e => e.traits.idcard) →
          1 < List.count v (events.map fun e => e.traits.idcard) →
          v ∈ r.top10.map Prod.fst) ∧
      (∀ p ∈ r.top10, ∀ v, 1 < List.count v (events.map fun e => e.traits.idcard) →
        v ∉ r.top10.map Prod.fst →
        List.count v (events.map fun e => e.traits.idcard) ≤ p.2) := by
  have hne : results.isEmpty = false := by
    cases results with
    | nil => exact absurd rfl h
    | cons a l => rfl
  refine ⟨_, print_statistics_eq results events hne, ?_, ?_, ?_, ?_, ?_⟩
  · intro p hp
    exact top10_mem (events.map fun e => e.traits.idcard) hp
  · show ((((histogram (events.map fun e => e.traits.idcard)).filter
        (fun p => 1 < p.2)).mergeSort (fun a b => decide (b.2 ≤ a.2))).take 10).length ≤ 10
    rw [List.length_take]
    exact min_le_left _ _
  · exact top10_sorted (events.map fun e => e.traits.idcard)
  · intro hlen v hvm hv
    exact top10_complete (events.map fun e => e.traits.idcard) hlen hvm hv
  · intro p hp v hv hvn
    exact top10_dominant (events.map fun e => e.traits.idcard) hp hv hvn

theorem print_statistics_top10_witness :
    ∃ r, print_statistics [sampleOutcome]
        [sampleEvent "D", sampleEvent "D", sampleEvent "E"] = some r ∧
      (∀ p ∈ r.top10,
        p.1 ∈ ([sampleEvent "D", sampleEvent "D", sampleEvent "E"].map
          fun e => e.traits.idcard) ∧
        1 < List.count p.1 ([sampleEvent "D", sampleEvent "D", sampleEvent "E"].map
          fun e => e.traits.idcard) ∧
        p.2 = List.count p.1 ([sampleEvent "D", sampleEvent "D", sampleEvent "E"].map
          fun e => e.traits.idcard)) ∧
      r.top10.length ≤ 10 ∧
      List.Sorted (fun a b : String × Nat => b.2 ≤ a.2) r.top10 ∧
      (r.dup_idcards_count ≤ 10 →
        ∀ v, v ∈ ([sampleEvent "D", sampleEvent "D", sampleEvent "E"].map
            fun e => e.traits.idcard) →
          1 < List.count v ([sampleEvent "D", sampleEvent "D", sampleEvent "E"].map
            fun e => e.traits.idcard) →
          v ∈ r.top10.map Prod.fst) ∧
      (∀ p ∈ r.top10, ∀ v,
        1 < List.count v ([sampleEvent "D", sampleEvent "D", sampleEvent "E"].map
          fun e => e.traits.idcard) →
        v ∉ r.top10.map Prod.fst →
        List.count v ([sampleEvent "D", sampleEvent "D", sampleEvent "E"].map
          fun e => e.traits.idcard) ≤ p.2) :=
  print_statistics_top10 [sampleOutcome]
    [sampleEvent "D", sampleEvent "D", sampleEvent "E"] (by decide)

end CDP
